import Mathlib

/-!
Verification development for the gemini-mcp repository.

The development shallowly embeds the request/response translation and
resiliency layer of the server:

* the provider client retry loops (`retryWithBackoff`, `fetchWithRetry`),
* the media fetcher (`validateUrl`, `parseDataUrl`, `fetchAsInlineData`),
* the content/message mappers (`mapContentToGeminiParts`,
  `mapMessagesToGeminiContents`),
* the response normalizers (`isBlocked`, `getBlockReason`, `extractText`,
  `extractUsage`, `extractFunctionCalls`),
* the embeddings client (`generateEmbeddings`), and
* the upload-source base64 size validation (`SourceBase64Schema`).

Strings are inspected through their character lists so that every predicate
is executable and decidable.  Network effects (HTTP fetches, the upstream
embeddings endpoint) are abstracted as explicit oracle parameters; the
functions under verification are the pure computations the source performs
around those effects.  Backoff sleeps are recorded as a list of delay values
in milliseconds instead of being performed.
-/

/-! ### String helpers

JavaScript string primitives used by the source (`includes`, `startsWith`,
`trim`, `Array.join`, `toLowerCase`), modelled over `List Char`. -/

/-- JS `haystack.includes(needle)`: substring containment. -/
def includesSubstr (haystack needle : String) : Bool :=
  decide (needle.data <:+: haystack.data)

/-- JS `s.startsWith(pre)`. -/
def strStartsWith (s pre : String) : Bool :=
  pre.data.isPrefixOf s.data

/-- JS `s.trim()`: strip leading and trailing whitespace. -/
def jsTrim (s : String) : String :=
  String.mk (((s.data.dropWhile Char.isWhitespace).reverse.dropWhile
    Char.isWhitespace).reverse)

/-- JS `array.join(sep)`. -/
def jsJoin (sep : String) : List String → String
  | [] => ""
  | a :: rest => rest.foldl (fun acc s => acc ++ sep ++ s) a

/-- JS `s.toLowerCase()` (ASCII case folding, which covers hostnames). -/
def lowerStr (s : String) : String :=
  String.mk (s.data.map Char.toLower)

/-! ### Response normalizer data model

Shallow embedding of the `GeminiResponse` type from
`src/providers/gemini.ts`.  Every field the JSON may omit is an `Option`. -/

/-- One safety rating entry (`category`, `probability`, `blocked`). -/
structure SafetyRating where
  category : String
  probability : String
  blocked : Bool
deriving DecidableEq, Repr

/-- One part of a candidate content: optional `text`, optional
`functionCall` payload (the payload itself is opaque to the normalizers,
modelled as a string). -/
structure ResponsePart where
  text : Option String
  functionCall : Option String
deriving DecidableEq, Repr

/-- Candidate `content` object: an optional list of parts. -/
structure CandidateContent where
  parts : Option (List ResponsePart)
deriving DecidableEq, Repr

/-- One response candidate. -/
structure Candidate where
  content : Option CandidateContent
  finishReason : Option String
  safetyRatings : Option (List SafetyRating)
deriving DecidableEq, Repr

/-- Prompt-level feedback. -/
structure PromptFeedback where
  safetyRatings : Option (List SafetyRating)
deriving DecidableEq, Repr

/-- Usage metadata counters. -/
structure UsageMetadata where
  promptTokenCount : Option Nat
  candidatesTokenCount : Option Nat
  totalTokenCount : Option Nat
deriving DecidableEq, Repr

/-- A raw provider response. -/
structure GeminiResponse where
  candidates : Option (List Candidate)
  promptFeedback : Option PromptFeedback
  usageMetadata : Option UsageMetadata
deriving DecidableEq, Repr

/-- Uniform usage shape produced by `extractUsage`. -/
structure Usage where
  prompt_tokens : Nat
  completion_tokens : Nat
  total_tokens : Nat
deriving DecidableEq, Repr

/-- Source `isBlocked` (providers/gemini.ts): zero candidates, or the first
candidate finished with `SAFETY` or `BLOCKED_REASON_UNSPECIFIED`. -/
def isBlocked (response : GeminiResponse) : Bool :=
  let candidates := response.candidates.getD []
  match candidates with
  | [] => true
  | candidate :: _ =>
    candidate.finishReason == some "SAFETY" ||
      candidate.finishReason == some "BLOCKED_REASON_UNSPECIFIED"

/-- Render the flagged safety ratings as `category: probability` joined by
commas, as both branches of `getBlockReason` do. -/
def flaggedRatings (ratings : List SafetyRating) : String :=
  jsJoin ", " ((ratings.filter (·.blocked)).map
    (fun rating => rating.category ++ ": " ++ rating.probability))

/-- Source `getBlockReason` (providers/gemini.ts). -/
def getBlockReason (response : GeminiResponse) : String :=
  let candidates := response.candidates.getD []
  match candidates with
  | [] =>
    match response.promptFeedback with
    | some promptFeedback =>
      match promptFeedback.safetyRatings with
      | some ratings =>
        let blocked := flaggedRatings ratings
        if blocked ≠ "" then
          "Prompt blocked due to safety concerns: " ++ blocked
        else "No content generated"
      | none => "No content generated"
    | none => "No content generated"
  | candidate :: _ =>
    if candidate.finishReason == some "SAFETY" then
      let issues := flaggedRatings (candidate.safetyRatings.getD [])
      if issues ≠ "" then
        "Content blocked due to safety concerns: " ++ issues
      else "Content blocked by safety filters"
    else "Content generation was stopped unexpectedly"

/-- Source `extractText` (providers/gemini.ts): join the truthy `text`
fields of the first candidate parts with blank lines.  The `filter(Boolean)`
drops both missing and empty strings. -/
def extractText (response : GeminiResponse) : String :=
  let candidates := response.candidates.getD []
  match candidates with
  | [] => ""
  | candidate :: _ =>
    let parts := (candidate.content.bind (·.parts)).getD []
    jsJoin "\n\n" ((parts.filterMap (·.text)).filter (· ≠ ""))

/-- Source `extractUsage` (providers/gemini.ts): absent iff the whole usage
block is absent; individual missing counters default to 0. -/
def extractUsage (response : GeminiResponse) : Option Usage :=
  match response.usageMetadata with
  | none => none
  | some usage =>
    some {
      prompt_tokens := usage.promptTokenCount.getD 0
      completion_tokens := usage.candidatesTokenCount.getD 0
      total_tokens := usage.totalTokenCount.getD 0 }

/-- Source `extractFunctionCalls` (providers/gemini.ts): the function-call
payloads of the first candidate parts, in order. -/
def extractFunctionCalls (response : GeminiResponse) : List String :=
  let candidates := response.candidates.getD []
  match candidates with
  | [] => []
  | candidate :: _ =>
    let parts := (candidate.content.bind (·.parts)).getD []
    parts.filterMap (·.functionCall)

/-- C7. `isBlocked` is true exactly when the candidate list (defaulted to
empty) is empty, or the first candidate finish reason is `SAFETY` or the
unspecified-block sentinel. -/
theorem isBlocked_iff (response : GeminiResponse) :
    isBlocked response = true ↔
      (response.candidates.getD [] = [] ∨
        ∃ c cs, response.candidates.getD [] = c :: cs ∧
          (c.finishReason = some "SAFETY" ∨
            c.finishReason = some "BLOCKED_REASON_UNSPECIFIED")) := by
  unfold isBlocked
  cases h : response.candidates.getD [] with
  | nil => simp
  | cons c cs =>
    simp only [Bool.or_eq_true, beq_iff_eq]
    constructor
    · intro hfin
      exact Or.inr ⟨c, cs, rfl, hfin⟩
    · rintro (hnil | ⟨c', cs', hcons, hfin⟩)
      · exact absurd hnil (by simp)
      · cases hcons
        exact hfin

/-! ### Provider client retry loops

`GeminiClient.retryWithBackoff` (used by `generateContent`) and
`GeminiClient.fetchWithRetry` (used by `uploadFile`, `listFiles`,
`deleteFile`, `generateEmbeddings`) from `src/providers/gemini.ts`.

An attempt is modelled as a function from the attempt index to its outcome;
the sleeps between attempts are recorded in a `delays` list (milliseconds).
-/

/-- Outcome of a single `operation()` call inside `retryWithBackoff`:
either a value or a thrown error carrying its message. -/
inductive OpOutcome (α : Type) where
  | ok (v : α)
  | err (msg : String)
deriving DecidableEq, Repr

instance exceptDecEq {ε α : Type} [DecidableEq ε] [DecidableEq α] :
    DecidableEq (Except ε α) := fun
  | .ok a, .ok b =>
    match decEq a b with
    | isTrue h => isTrue (by rw [h])
    | isFalse h => isFalse (by intro he; cases he; exact h rfl)
  | .ok _, .error _ => isFalse (by intro h; cases h)
  | .error _, .ok _ => isFalse (by intro h; cases h)
  | .error e, .error f =>
    match decEq e f with
    | isTrue h => isTrue (by rw [h])
    | isFalse h => isFalse (by intro he; cases he; exact h rfl)

/-- Observable result of a retry loop: the returned value or the thrown
error message, the number of attempts made, and the backoff sleeps taken. -/
structure RetryResult (α : Type) where
  result : Except String α
  attempts : Nat
  delays : List Nat
deriving DecidableEq, Repr

/-- Loop body of `retryWithBackoff`.  `fuel` counts the remaining
iterations of the `for` loop (`maxRetries + 1 - attempt`); the fuel-zero
case corresponds to the unreachable `throw lastError!` after the loop. -/
def retryBackoffAux {α : Type} (op : Nat → OpOutcome α) (maxRetries : Nat) :
    Nat → Nat → List Nat → RetryResult α
  | 0, attempt, delays => ⟨.error "", attempt, delays⟩
  | fuel + 1, attempt, delays =>
    match op attempt with
    | .ok v => ⟨.ok v, attempt + 1, delays⟩
    | .err msg =>
      if includesSubstr msg "400" then ⟨.error msg, attempt + 1, delays⟩
      else if attempt = maxRetries then ⟨.error msg, attempt + 1, delays⟩
      else if includesSubstr msg "429" || includesSubstr msg "5" then
        retryBackoffAux op maxRetries fuel (attempt + 1)
          (delays ++ [2 ^ attempt * 1000])
      else ⟨.error msg, attempt + 1, delays⟩

/-- Source `GeminiClient.retryWithBackoff` with its attempt/backoff
bookkeeping made explicit. -/
def retryWithBackoff {α : Type} (op : Nat → OpOutcome α)
    (maxRetries : Nat := 3) : RetryResult α :=
  retryBackoffAux op maxRetries (maxRetries + 1) 0 []

/-- The message classes `retryWithBackoff` actually retries: no "400"
substring, and a "429" or "5" substring present. -/
def shouldRetryMsg (msg : String) : Bool :=
  !includesSubstr msg "400" && (includesSubstr msg "429" || includesSubstr msg "5")

/-- Error body attached to a non-OK HTTP response
(`errorBody?.error?.{code,status,message}`). -/
structure UpstreamErrorBody where
  code : Option Nat
  status : Option String
  message : Option String
deriving DecidableEq, Repr

/-- Outcome of one `fetch` inside `fetchWithRetry`: an OK response with a
body, a non-OK HTTP response (status, optional parsed error body, status
text), or a thrown network/parse-level exception. -/
inductive FetchOutcome (β : Type) where
  | ok (v : β)
  | http (status : Nat) (errorBody : Option UpstreamErrorBody) (statusText : String)
  | net (msg : String)
deriving DecidableEq, Repr

/-- The structured error `fetchWithRetry` constructs for a non-retryable
HTTP status, with the upstream code, status string and message interpolated
into the message and the raw HTTP status attached. -/
structure GeminiApiError where
  message : String
  status : Nat
deriving DecidableEq, Repr

/-- An error value that can flow out of `fetchWithRetry`: the constructed
API error or a network/parse exception. -/
inductive FwrError where
  | api (e : GeminiApiError)
  | net (msg : String)
deriving DecidableEq, Repr

/-- Observable result of `fetchWithRetry`: the value or the thrown error
(`none` models throwing an undefined `lastError`), attempts, delays. -/
structure FwrResult (β : Type) where
  result : Except (Option FwrError) β
  attempts : Nat
  delays : List Nat
deriving DecidableEq, Repr

/-- Build the terminal error for a non-429/5xx HTTP status exactly as the
source interpolates it: `Gemini API error <code>[ (<status>)]: <message>`,
where falsy (`0` / empty) fields fall back per JS truthiness. -/
def mkGeminiApiError (status : Nat) (errorBody : Option UpstreamErrorBody)
    (statusText : String) : GeminiApiError :=
  let bodyMessage := (errorBody.bind (·.message)).getD ""
  let message := if bodyMessage ≠ "" then bodyMessage
    else if statusText ≠ "" then statusText else "Unknown error"
  let bodyCode := (errorBody.bind (·.code)).getD 0
  let code := if bodyCode ≠ 0 then bodyCode else status
  let statusStr := (errorBody.bind (·.status)).getD ""
  let rendered := "Gemini API error " ++ toString code ++
    (if statusStr ≠ "" then " (" ++ statusStr ++ ")" else "") ++ ": " ++ message
  ⟨rendered, status⟩

/-- Loop body of `fetchWithRetry`.  `fuel` counts the remaining iterations
of the `while (attempt <= maxRetries)` loop; fuel zero is the loop exit,
which throws `lastError`.  Note that the terminal error constructed for a
non-429/5xx status is thrown inside the `try` block, so it is caught by the
`catch` below it and retried like a network error. -/
def fetchWithRetryAux {β : Type} (outcome : Nat → FetchOutcome β)
    (maxRetries : Nat) :
    Nat → Nat → Option FwrError → List Nat → FwrResult β
  | 0, attempt, lastError, delays => ⟨.error lastError, attempt, delays⟩
  | fuel + 1, attempt, lastError, delays =>
    match outcome attempt with
    | .ok v => ⟨.ok v, attempt + 1, delays⟩
    | .http status errorBody statusText =>
      if status = 429 ∨ (500 ≤ status ∧ status < 600) then
        fetchWithRetryAux outcome maxRetries fuel (attempt + 1) lastError
          (delays ++ [500 * 2 ^ attempt])
      else
        let err := FwrError.api (mkGeminiApiError status errorBody statusText)
        if attempt < maxRetries then
          fetchWithRetryAux outcome maxRetries fuel (attempt + 1) (some err)
            (delays ++ [500 * 2 ^ attempt])
        else ⟨.error (some err), attempt + 1, delays⟩
    | .net msg =>
      let err := FwrError.net msg
      if attempt < maxRetries then
        fetchWithRetryAux outcome maxRetries fuel (attempt + 1) (some err)
          (delays ++ [500 * 2 ^ attempt])
      else ⟨.error (some err), attempt + 1, delays⟩

/-- Source `GeminiClient.fetchWithRetry` with `maxRetries = 3` and
`initialBackoffMs = 500`. -/
def fetchWithRetry {β : Type} (outcome : Nat → FetchOutcome β) : FwrResult β :=
  fetchWithRetryAux outcome 3 4 0 none []

/-- C1. Evaluation of `fetchWithRetry` at a request that receives HTTP 404
on every attempt: the terminal error for a non-429/5xx status is thrown
inside the `try` block, so the `catch` below it treats it like a network
error and retries.  The call makes 4 attempts with backoff sleeps of
500, 1000 and 2000 ms before surfacing the constructed error, instead of
throwing it immediately on the first attempt as specified. -/
theorem fetchWithRetry_404_not_terminal :
    fetchWithRetry (fun _ => FetchOutcome.http (β := Nat) 404 none "Not Found") =
      ⟨.error (some (.api ⟨"Gemini API error 404: Not Found", 404⟩)), 4,
        [500, 1000, 2000]⟩ := by decide

/-- C2 counterexample. A failure whose message contains neither "400" nor
"429" nor "5" is not retried: `retryWithBackoff` makes exactly one attempt
and rethrows it, although the claim says every non-400 failure is retried. -/
theorem retryWithBackoff_counterexample :
    retryWithBackoff (fun _ => OpOutcome.err (α := Nat) "connection reset") =
      ⟨.error "connection reset", 1, []⟩ ∧
    includesSubstr "connection reset" "400" = false := by decide

/-- C2 amended. `generateContent` retries only failures whose message
contains "429" or "5" and does not contain "400" (`shouldRetryMsg`); any
other failure — including every message containing "400" — is surfaced
after exactly one attempt.  Retryable failures are retried up to 3 times
with delays 1000, 2000, 4000 ms, and on exhaustion the last error is
surfaced unchanged. -/
theorem retryWithBackoff_amended {α : Type} (op : Nat → OpOutcome α) :
    (∀ v, op 0 = OpOutcome.ok v → retryWithBackoff op = ⟨.ok v, 1, []⟩) ∧
    (∀ msg, op 0 = OpOutcome.err msg → shouldRetryMsg msg = false →
      retryWithBackoff op = ⟨.error msg, 1, []⟩) ∧
    (∀ m0 m1 m2 m3, op 0 = .err m0 → op 1 = .err m1 → op 2 = .err m2 →
      op 3 = .err m3 →
      shouldRetryMsg m0 = true → shouldRetryMsg m1 = true →
      shouldRetryMsg m2 = true →
      retryWithBackoff op = ⟨.error m3, 4, [1000, 2000, 4000]⟩) := by
  refine ⟨?_, ?_, ?_⟩
  · intro v h0
    simp [retryWithBackoff, retryBackoffAux, h0]
  · intro msg h0 hsr
    by_cases h4 : includesSubstr msg "400" = true
    · simp [retryWithBackoff, retryBackoffAux, h0, h4]
    · have h4f : includesSubstr msg "400" = false := by
        revert h4; cases includesSubstr msg "400" <;> simp
      have h45 : (includesSubstr msg "429" || includesSubstr msg "5") = false := by
        revert hsr; unfold shouldRetryMsg; rw [h4f]; simp
      simp [retryWithBackoff, retryBackoffAux, h0, h4f, h45]
  · intro m0 m1 m2 m3 h0 h1 h2 h3 hs0 hs1 hs2
    have e0 : includesSubstr m0 "400" = false ∧
        (includesSubstr m0 "429" || includesSubstr m0 "5") = true := by
      revert hs0; unfold shouldRetryMsg; cases includesSubstr m0 "400" <;> simp
    have e1 : includesSubstr m1 "400" = false ∧
        (includesSubstr m1 "429" || includesSubstr m1 "5") = true := by
      revert hs1; unfold shouldRetryMsg; cases includesSubstr m1 "400" <;> simp
    have e2 : includesSubstr m2 "400" = false ∧
        (includesSubstr m2 "429" || includesSubstr m2 "5") = true := by
      revert hs2; unfold shouldRetryMsg; cases includesSubstr m2 "400" <;> simp
    simp [retryWithBackoff, retryBackoffAux, h0, h1, h2, h3,
      e0.1, e0.2, e1.1, e1.2, e2.1, e2.2]

/-- Witness for `retryWithBackoff_amended`: instantiated at an operation
that fails every attempt with a 503 message. -/
theorem retryWithBackoff_amended_witness :
    retryWithBackoff (fun _ => OpOutcome.err (α := Nat) "503 Service Unavailable") =
      ⟨.error "503 Service Unavailable", 4, [1000, 2000, 4000]⟩ :=
  (retryWithBackoff_amended (fun _ => OpOutcome.err "503 Service Unavailable")).2.2
    "503 Service Unavailable" "503 Service Unavailable" "503 Service Unavailable"
    "503 Service Unavailable" rfl rfl rfl rfl
    (by decide) (by decide) (by decide)

/-! ### Media fetcher

`validateUrl`, `parseDataUrl` and `fetchAsInlineData` from
`src/utils/media.ts`.  The WHATWG `URL` parser is modelled by a simple
scheme/authority split adequate for the http(s)/ftp URLs the guard
inspects; the actual network fetch performed for non-`data:` URLs is an
explicit oracle parameter. -/

/-- Result shape of the media fetcher: base64 data plus MIME type. -/
structure InlineDataResult where
  data : String
  mimeType : String
deriving DecidableEq, Repr

/-- Characters allowed in a URL scheme after the leading letter. -/
def isSchemeChar (c : Char) : Bool :=
  c.isAlpha || c.isDigit || c = '+' || c = '-' || c = '.'

/-- Parsed URL pieces the SSRF guard consults: `protocol` (with the
trailing colon) and `hostname`, both lowercased as `new URL` does. -/
structure ParsedUrl where
  protocol : String
  hostname : String
deriving DecidableEq, Repr

/-- Model of `new URL(urlString)` restricted to what `validateUrl` reads:
split off the scheme at the first colon, then take the authority after
`//` up to the first delimiter as the hostname. -/
def parseUrlSimple (s : String) : Option ParsedUrl :=
  let l := s.data
  let scheme := l.takeWhile (fun c => c ≠ ':')
  if scheme.length = 0 ∨ scheme.length = l.length ∨
      ¬ scheme.all isSchemeChar ∨ ¬ (scheme.headD 'a').isAlpha then none
  else
    let rest := l.drop (scheme.length + 1)
    let hostPath := if rest.take 2 = ['/', '/'] then rest.drop 2 else []
    let host := hostPath.takeWhile
      (fun c => c ≠ '/' ∧ c ≠ ':' ∧ c ≠ '?' ∧ c ≠ '#')
    some ⟨String.mk (scheme.map Char.toLower) ++ ":",
      String.mk (host.map Char.toLower)⟩

/-- Source `DISALLOWED_HOSTNAMES` (utils/media.ts). -/
def DISALLOWED_HOSTNAMES : List String :=
  ["localhost", "0.0.0.0", "metadata.google.internal", "169.254.169.254"]

/-- Source `DISALLOWED_NETWORKS` (utils/media.ts): each regex rendered as
the literal prefix/equality test it performs on the hostname. -/
def disallowedNetwork (hostname : String) : Bool :=
  strStartsWith hostname "127." ||
  strStartsWith hostname "10." ||
  strStartsWith hostname "192.168." ||
  (["172.16.", "172.17.", "172.18.", "172.19.", "172.20.", "172.21.",
    "172.22.", "172.23.", "172.24.", "172.25.", "172.26.", "172.27.",
    "172.28.", "172.29.", "172.30.", "172.31."].any
      (fun p => strStartsWith hostname p)) ||
  strStartsWith hostname "169.254." ||
  hostname == "::1" ||
  strStartsWith hostname "fc00::" ||
  strStartsWith hostname "fe80::"

/-- Source `validateUrl` (utils/media.ts): parse, allow only http(s), then
reject disallowed hostnames and private/reserved literal address ranges. -/
def validateUrl (urlString : String) : Except String Unit :=
  match parseUrlSimple urlString with
  | none => .error ("Invalid URL: " ++ urlString)
  | some parsedUrl =>
    if ¬ (parsedUrl.protocol = "http:" ∨ parsedUrl.protocol = "https:") then
      .error ("Unsupported protocol: " ++ parsedUrl.protocol ++
        ". Only HTTP and HTTPS are allowed.")
    else
      let hostname := lowerStr parsedUrl.hostname
      if DISALLOWED_HOSTNAMES.contains hostname then
        .error ("Access to hostname is not allowed: " ++ hostname)
      else if disallowedNetwork hostname then
        .error ("Access to IP range is not allowed: " ++ hostname)
      else .ok ()

/-- Characters the JS regex `.` matches (no line terminators). -/
def isRegexDotChar (c : Char) : Bool :=
  c ≠ '\n' ∧ c ≠ '\r'

/-- Match of `^data:([^;,]+)?(;base64)?,(.*)` against the input, returning
the optional MIME group, whether `;base64` was present, and the payload. -/
def dataUrlMatch (l : List Char) : Option (Option String × Bool × List Char) :=
  if l.take 5 = "data:".data then
    let rest := l.drop 5
    let mimeChars := rest.takeWhile (fun c => c ≠ ';' ∧ c ≠ ',')
    let afterMime := rest.drop mimeChars.length
    let mime := if mimeChars = [] then none else some (String.mk mimeChars)
    if afterMime.take 8 = ";base64,".data then
      some (mime, true, (afterMime.drop 8).takeWhile isRegexDotChar)
    else if afterMime.take 1 = [','] then
      some (mime, false, (afterMime.drop 1).takeWhile isRegexDotChar)
    else none
  else none

/-- Source `parseDataUrl` (utils/media.ts).  The base64 "validation" in the
source calls `Buffer.from(data, 'base64')` inside a `try`; that call never
throws in Node for any string, so the catch branch is unreachable and the
payload is returned unchanged whenever the `;base64` marker is present. -/
def parseDataUrl (dataUrl : String) : Except String InlineDataResult :=
  match dataUrlMatch dataUrl.data with
  | none => .error "Invalid data URL format"
  | some (mime, isBase64, payload) =>
    if ¬ isBase64 then .error "Only base64-encoded data URLs are supported"
    else .ok ⟨String.mk payload, mime.getD "application/octet-stream"⟩

/-- Source `fetchAsInlineData` (utils/media.ts): `data:` URIs are parsed
locally with no URL validation and no network call; anything else is
validated by `validateUrl` and then fetched (the fetch, MIME resolution and
size capping are abstracted into the `httpFetch` oracle). -/
def fetchAsInlineData
    (httpFetch : String → Option String → Except String InlineDataResult)
    (url : String) (mimeHint : Option String) :
    Except String InlineDataResult :=
  if strStartsWith url "data:" then parseDataUrl url
  else
    match validateUrl url with
    | .error e => .error e
    | .ok _ => httpFetch url mimeHint

/-- Helper to state that a guard rejected its input. -/
def isErr {ε α : Type} : Except ε α → Bool
  | .error _ => true
  | .ok _ => false

/-! ### Upload-source base64 size validation

`SourceBase64Schema` from `src/schemas.ts`: the base64 shape regex, the
4-character minimum, and the decoded-size bound computed by
`approximateBase64DecodedBytes` against `MAX_UPLOAD_BYTES`.  Payloads are
modelled as character lists. -/

/-- A base64 alphabet character (`A-Za-z0-9+/`). -/
def isB64Char (c : Char) : Bool := c.isAlphanum || c = '+' || c = '/'

/-- Trailing `=` padding as the source detects it with
`b64.endsWith("==")` / `b64.endsWith("=")`. -/
def b64Padding (l : List Char) : Nat :=
  if ['=', '='].isSuffixOf l then 2
  else if ['='].isSuffixOf l then 1
  else 0

/-- Source `base64Regex`
`^(?:[A-Za-z0-9+/]{4})*(?:[A-Za-z0-9+/]{2}==|[A-Za-z0-9+/]{3}=)?$`:
length divisible by 4 and, after stripping the recognized padding, only
alphabet characters remain. -/
def matchesBase64Regex (l : List Char) : Bool :=
  decide (l.length % 4 = 0) &&
    ((l.take (l.length - b64Padding l)).all isB64Char)

/-- Source `approximateBase64DecodedBytes`:
`Math.floor((len * 3) / 4) - padding`. -/
def approximateBase64DecodedBytes (b64 : List Char) : Int :=
  (b64.length * 3 : Int) / 4 - b64Padding b64

/-- Source `MAX_UPLOAD_BYTES = 50 * 1024 * 1024` (50 MiB). -/
def MAX_UPLOAD_BYTES : Int := 50 * 1024 * 1024

/-- Validation performed by `SourceBase64Schema` on the base64 payload:
shape regex, minimum length 4, decoded size positive and at most 50 MiB. -/
def sourceBase64Valid (b64 : List Char) : Bool :=
  matchesBase64Regex b64 && decide (4 ≤ b64.length) &&
    decide (0 < approximateBase64DecodedBytes b64) &&
    decide (approximateBase64DecodedBytes b64 ≤ MAX_UPLOAD_BYTES)

/-- Canonical base64 encoding shape of an `n`-byte payload: `4 * ceil(n/3)`
characters, the tail padded with one or two `=` depending on `n mod 3`.
The payload characters themselves are irrelevant to the size check, so the
alphabet character `A` stands in for all of them. -/
def canonB64 (n : Nat) : List Char :=
  if n % 3 = 0 then List.replicate ((n / 3) * 4) 'A'
  else if n % 3 = 1 then List.replicate ((n / 3) * 4 + 2) 'A' ++ ['=', '=']
  else List.replicate ((n / 3) * 4 + 3) 'A' ++ ['=']

theorem no_eq_suffix_replicate (m : Nat) (s : List Char) (hs : '=' ∈ s) :
    ¬ s <:+ List.replicate m 'A' := by
  intro h
  have hmem : '=' ∈ List.replicate m 'A' := h.subset hs
  have := List.eq_of_mem_replicate hmem
  exact absurd this (by decide)

theorem pads0 (m : Nat) : b64Padding (List.replicate m 'A') = 0 := by
  have h2 : (['=', '='].isSuffixOf (List.replicate m 'A')) = false := by
    rw [Bool.eq_false_iff]
    intro hc
    exact no_eq_suffix_replicate m _ (by decide)
      (List.isSuffixOf_iff_suffix.mp hc)
  have h1 : (['='].isSuffixOf (List.replicate m 'A')) = false := by
    rw [Bool.eq_false_iff]
    intro hc
    exact no_eq_suffix_replicate m _ (by decide)
      (List.isSuffixOf_iff_suffix.mp hc)
  simp [b64Padding, h2, h1]

theorem pads1 (m : Nat) :
    b64Padding (List.replicate (m + 1) 'A' ++ ['=']) = 1 := by
  have h2 : (['=', '='].isSuffixOf (List.replicate (m + 1) 'A' ++ ['='])) = false := by
    rw [Bool.eq_false_iff]
    intro hc
    obtain ⟨t, ht⟩ := List.isSuffixOf_iff_suffix.mp hc
    have ht' : (t ++ ['=']) ++ ['='] = (List.replicate m 'A' ++ ['A']) ++ ['='] := by
      simpa [List.append_assoc, List.replicate_succ'] using ht
    have hstep := (List.append_inj' ht' rfl).1
    have hstep2 := (List.append_inj' hstep rfl).2
    exact absurd (List.cons.injEq .. ▸ hstep2) (by simp)
  have h1 : (['='].isSuffixOf (List.replicate (m + 1) 'A' ++ ['='])) = true := by
    rw [List.isSuffixOf_iff_suffix]
    exact ⟨List.replicate (m + 1) 'A', rfl⟩
  simp [b64Padding, h2, h1]

theorem pads2 (m : Nat) :
    b64Padding (List.replicate m 'A' ++ ['=', '=']) = 2 := by
  have h2 : (['=', '='].isSuffixOf (List.replicate m 'A' ++ ['=', '='])) = true := by
    rw [List.isSuffixOf_iff_suffix]
    exact ⟨List.replicate m 'A', rfl⟩
  simp [b64Padding, h2]

theorem matches_canonB64 (n : Nat) : matchesBase64Regex (canonB64 n) = true := by
  unfold canonB64
  by_cases h0 : n % 3 = 0
  · rw [if_pos h0]
    unfold matchesBase64Regex
    rw [pads0, Bool.and_eq_true, decide_eq_true_eq]
    refine ⟨by simp, ?_⟩
    simp only [List.length_replicate, Nat.sub_zero, List.take_replicate,
      Nat.min_self, List.all_replicate]
    split <;> decide
  · rw [if_neg h0]
    by_cases h1 : n % 3 = 1
    · rw [if_pos h1]
      unfold matchesBase64Regex
      rw [pads2, Bool.and_eq_true, decide_eq_true_eq]
      have hlen : (List.replicate (n / 3 * 4 + 2) 'A' ++ ['=', '=']).length
          = n / 3 * 4 + 4 := by simp
      rw [hlen]
      refine ⟨by omega, ?_⟩
      have htake : (List.replicate (n / 3 * 4 + 2) 'A' ++ ['=', '=']).take
          (n / 3 * 4 + 4 - 2) = List.replicate (n / 3 * 4 + 2) 'A' := by
        have he : n / 3 * 4 + 4 - 2 = (List.replicate (n / 3 * 4 + 2) 'A').length := by
          simp
        rw [he, List.take_left]
      rw [htake, List.all_replicate]
      split <;> decide
    · rw [if_neg h1]
      unfold matchesBase64Regex
      have hm : n / 3 * 4 + 3 = (n / 3 * 4 + 2) + 1 := by omega
      rw [hm, pads1, Bool.and_eq_true, decide_eq_true_eq]
      have hlen : (List.replicate (n / 3 * 4 + 2 + 1) 'A' ++ ['=']).length
          = n / 3 * 4 + 4 := by simp
      rw [hlen]
      refine ⟨by omega, ?_⟩
      have htake : (List.replicate (n / 3 * 4 + 2 + 1) 'A' ++ ['=']).take
          (n / 3 * 4 + 4 - 1) = List.replicate (n / 3 * 4 + 2 + 1) 'A' := by
        have he : n / 3 * 4 + 4 - 1 = (List.replicate (n / 3 * 4 + 2 + 1) 'A').length := by
          simp
        rw [he, List.take_left]
      rw [htake, List.all_replicate]
      split <;> decide

/-- The size check recovers the exact decoded byte count of a canonically
encoded `n`-byte payload. -/
theorem approx_canonB64 (n : Nat) :
    approximateBase64DecodedBytes (canonB64 n) = (n : Int) := by
  unfold canonB64
  by_cases h0 : n % 3 = 0
  · rw [if_pos h0]
    unfold approximateBase64DecodedBytes
    rw [pads0]
    simp only [List.length_replicate]
    omega
  · rw [if_neg h0]
    by_cases h1 : n % 3 = 1
    · rw [if_pos h1]
      unfold approximateBase64DecodedBytes
      rw [pads2]
      simp only [List.length_append, List.length_replicate, List.length_cons,
        List.length_nil]
      omega
    · rw [if_neg h1]
      unfold approximateBase64DecodedBytes
      have hm : n / 3 * 4 + 3 = (n / 3 * 4 + 2) + 1 := by omega
      rw [hm, pads1]
      simp only [List.length_append, List.length_replicate, List.length_cons,
        List.length_nil]
      omega

theorem length_canonB64 (n : Nat) :
    (canonB64 n).length = ((n + 2) / 3) * 4 := by
  unfold canonB64
  by_cases h0 : n % 3 = 0
  · rw [if_pos h0]; simp; omega
  · rw [if_neg h0]
    by_cases h1 : n % 3 = 1
    · rw [if_pos h1]; simp; omega
    · rw [if_neg h1]; simp; omega

/-- C4. SSRF guard scenarios on the literal inputs of the spec: loopback,
`localhost` and the metadata-service address are rejected, a public https
URL is accepted, `ftp:` is rejected as an unsupported protocol, and a
`data:` URI is parsed by `fetchAsInlineData` without consulting the URL
guard or the network oracle (the result is independent of `httpFetch`). -/
theorem ssrf_guard_scenarios :
    isErr (validateUrl "http://127.0.0.1/x") = true ∧
    isErr (validateUrl "http://localhost/x") = true ∧
    isErr (validateUrl "https://169.254.169.254/") = true ∧
    isErr (validateUrl "ftp://example.com") = true ∧
    validateUrl "https://example.com/image.png" = .ok () ∧
    (∀ httpFetch hint,
      fetchAsInlineData httpFetch "data:image/png;base64,iVBORw0KG" hint =
        .ok ⟨"iVBORw0KG", "image/png"⟩) := by
  refine ⟨by decide, by decide, by decide, by decide, by decide, ?_⟩
  intro httpFetch hint
  rfl

/-- C5. The failing part of the data-URI contract: a `data:` URI whose
payload is not valid base64 (here `!!!`, rejected by the repository's own
`base64Regex`) is accepted by `parseDataUrl` and returned unchanged,
because `Buffer.from(data, "base64")` never throws; the claim requires
such payloads to fail.  The marker check itself works: a URI without
`;base64` is rejected. -/
theorem parseDataUrl_invalid_base64_accepted :
    parseDataUrl "data:text/plain;base64,!!!" = .ok ⟨"!!!", "text/plain"⟩ ∧
    matchesBase64Regex "!!!".data = false ∧
    parseDataUrl "data:text/plain,hello" =
      .error "Only base64-encoded data URLs are supported" := by
  refine ⟨by decide, by decide, by decide⟩

/-- C9. The upload-source validation accepts a canonically encoded payload
of exactly 50 MiB and rejects one of 50 MiB plus one byte; the decoded
size computed from the base64 length and padding is exact at both
boundaries. -/
theorem base64_size_boundary :
    sourceBase64Valid (canonB64 52428800) = true ∧
    sourceBase64Valid (canonB64 52428801) = false ∧
    approximateBase64DecodedBytes (canonB64 52428800) = 52428800 ∧
    approximateBase64DecodedBytes (canonB64 52428801) = 52428801 := by
  have ha : approximateBase64DecodedBytes (canonB64 52428800) = 52428800 :=
    approx_canonB64 52428800
  have hb : approximateBase64DecodedBytes (canonB64 52428801) = 52428801 :=
    approx_canonB64 52428801
  refine ⟨?_, ?_, ha, hb⟩
  · unfold sourceBase64Valid
    rw [matches_canonB64, length_canonB64, ha]
    norm_num [MAX_UPLOAD_BYTES]
  · unfold sourceBase64Valid
    rw [hb]
    norm_num [MAX_UPLOAD_BYTES]

/-! ### Content mapper

`mapContentToGeminiParts` and `mapMessagesToGeminiContents` from
`src/index.ts`.  Tool-level content parts carry an extra `unknown`
constructor for the `default:` branch of the switch (a part whose tag is
none of the recognized ones).  The remote fetch inside the media cases is
`fetchAsInlineData` over the same `httpFetch` oracle as above. -/

/-- Source `validateDataSize` (utils/media.ts) at its default 20 MB limit:
`(len * 3 / 4) / (1024 * 1024) <= 20`, which for exact arithmetic is
`len * 3 <= 20 * 4 * 1024 * 1024` (the JS float intermediate values are
exact for lengths in this range). -/
def validateDataSize (base64Data : String) : Bool :=
  decide (base64Data.length * 3 ≤ 20 * 4 * 1024 * 1024)

/-- Tool-level content part (`ContentPartSchema` in schemas.ts, plus the
unrecognized-tag case the mapper's `default:` branch handles). -/
inductive ContentPart where
  | text (text : String)
  | image_url (url : String) (mimeType : Option String)
  | audio_url (url : String) (mimeType : Option String)
  | video_url (url : String) (mimeType : Option String)
  | inline_data (data : String) (mimeType : String)
  | file_uri (uri : String) (mimeType : Option String)
  | unknown (tag : String)
deriving DecidableEq, Repr

/-- Native provider part (`GeminiPart` in providers/gemini.ts). -/
inductive GeminiPart where
  | text (text : String)
  | inlineData (data : String) (mimeType : String)
  | fileData (fileUri : String) (mimeType : Option String)
deriving DecidableEq, Repr

/-- Message content: a bare string or a list of typed parts. -/
inductive Content where
  | str (s : String)
  | parts (ps : List ContentPart)
deriving DecidableEq, Repr

/-- The substituted text for a failed media reference:
`[Error loading media from <url>: <error>]`, where the interpolated thrown
error renders as `Error: <message>`. -/
def mediaErrorText (url msg : String) : String :=
  "[Error loading media from " ++ url ++ ": Error: " ++ msg ++ "]"

/-- The single native part produced for an `image_url`/`audio_url`/
`video_url` part: fetch (any thrown error, including the oversize throw
after a successful fetch, is caught and substituted as descriptive text);
the MIME allow-list check only logs a warning and has no effect on the
produced part. -/
def mediaPart (httpFetch : String → Option String → Except String InlineDataResult)
    (url : String) (mimeType : Option String) : GeminiPart :=
  match fetchAsInlineData httpFetch url mimeType with
  | .error e => .text (mediaErrorText url e)
  | .ok inlineData =>
    if validateDataSize inlineData.data then
      .inlineData inlineData.data inlineData.mimeType
    else .text (mediaErrorText url ("Media file too large: " ++ url))

/-- The per-part production of the mapper loop, as a total function (valid
for inline parts that pass the size check). -/
def mapOnePure (httpFetch : String → Option String → Except String InlineDataResult) :
    ContentPart → List GeminiPart
  | .text t => [.text t]
  | .image_url u m => [mediaPart httpFetch u m]
  | .audio_url u m => [mediaPart httpFetch u m]
  | .video_url u m => [mediaPart httpFetch u m]
  | .inline_data d m => [.inlineData d m]
  | .file_uri u m => [.fileData u m]
  | .unknown _ => []

/-- The mapper loop over a part list (the `for` body of
`mapContentToGeminiParts`): each recognized part appends its production,
unrecognized tags are skipped, and an oversize inline part throws
`Inline data too large` for the whole mapping. -/
def mapPartsList (httpFetch : String → Option String → Except String InlineDataResult) :
    List ContentPart → Except String (List GeminiPart)
  | [] => .ok []
  | ContentPart.text t :: rest =>
    (mapPartsList httpFetch rest).map (fun tail => GeminiPart.text t :: tail)
  | ContentPart.image_url u m :: rest =>
    (mapPartsList httpFetch rest).map (fun tail => mediaPart httpFetch u m :: tail)
  | ContentPart.audio_url u m :: rest =>
    (mapPartsList httpFetch rest).map (fun tail => mediaPart httpFetch u m :: tail)
  | ContentPart.video_url u m :: rest =>
    (mapPartsList httpFetch rest).map (fun tail => mediaPart httpFetch u m :: tail)
  | ContentPart.inline_data d m :: rest =>
    if validateDataSize d then
      (mapPartsList httpFetch rest).map
        (fun tail => GeminiPart.inlineData d m :: tail)
    else .error "Inline data too large"
  | ContentPart.file_uri u m :: rest =>
    (mapPartsList httpFetch rest).map
      (fun tail => GeminiPart.fileData u m :: tail)
  | ContentPart.unknown _ :: rest => mapPartsList httpFetch rest

/-- Source `mapContentToGeminiParts` (index.ts): a bare string becomes a
single text part; a part list is mapped by the loop above. -/
def mapContentToGeminiParts
    (httpFetch : String → Option String → Except String InlineDataResult) :
    Content → Except String (List GeminiPart)
  | .str s => .ok [.text s]
  | .parts ps => mapPartsList httpFetch ps

/-- Whether a part has an unrecognized tag. -/
def isUnknownPart : ContentPart → Bool
  | .unknown _ => true
  | _ => false

/-- Whether a part passes the inline-size validation (vacuously true for
every non-inline part). -/
def inlineSizeOk : ContentPart → Bool
  | .inline_data d _ => validateDataSize d
  | _ => true

theorem mapPartsList_eq_flatMap
    (httpFetch : String → Option String → Except String InlineDataResult)
    (ps : List ContentPart) (h : ps.all inlineSizeOk = true) :
    mapPartsList httpFetch ps = .ok (ps.flatMap (mapOnePure httpFetch)) := by
  induction ps with
  | nil => rfl
  | cons p rest ih =>
    rw [List.all_cons, Bool.and_eq_true] at h
    have ihr := ih h.2
    cases p with
    | text t => simp [mapPartsList, ihr, mapOnePure, Except.map]
    | image_url u m => simp [mapPartsList, ihr, mapOnePure, Except.map]
    | audio_url u m => simp [mapPartsList, ihr, mapOnePure, Except.map]
    | video_url u m => simp [mapPartsList, ihr, mapOnePure, Except.map]
    | inline_data d m =>
      have hd : validateDataSize d = true := h.1
      simp [mapPartsList, hd, ihr, mapOnePure, Except.map]
    | file_uri u m => simp [mapPartsList, ihr, mapOnePure, Except.map]
    | unknown tag => simp [mapPartsList, ihr, mapOnePure, Except.map]

theorem mapOnePure_length
    (httpFetch : String → Option String → Except String InlineDataResult)
    (p : ContentPart) :
    (mapOnePure httpFetch p).length = if isUnknownPart p then 0 else 1 := by
  cases p <;> rfl

theorem flatMap_length
    (httpFetch : String → Option String → Except String InlineDataResult)
    (ps : List ContentPart) :
    (ps.flatMap (mapOnePure httpFetch)).length =
      ps.length - ps.countP isUnknownPart := by
  induction ps with
  | nil => rfl
  | cons p rest ih =>
    rw [List.flatMap_cons, List.length_append, ih, mapOnePure_length,
      List.countP_cons, List.length_cons]
    have hle : rest.countP isUnknownPart ≤ rest.length := List.countP_le_length _
    cases hu : isUnknownPart p <;> (simp [hu]; all_goals omega)

/-- C3. Shape of `mapContentToGeminiParts` when no inline-bytes part is
oversize: a bare string yields exactly one text part with the input string;
a part list maps to the concatenation of the per-part productions in input
order, where every recognized part yields exactly one native part (failed
media fetches included, as a substituted text part) and unrecognized tags
yield none, so the output length is the input length minus the
unrecognized-tag count. -/
theorem mapContent_shape
    (httpFetch : String → Option String → Except String InlineDataResult)
    (ps : List ContentPart) (h : ps.all inlineSizeOk = true) :
    (∀ s, mapContentToGeminiParts httpFetch (Content.str s) =
      .ok [GeminiPart.text s]) ∧
    mapContentToGeminiParts httpFetch (Content.parts ps) =
      .ok (ps.flatMap (mapOnePure httpFetch)) ∧
    (∀ p, (mapOnePure httpFetch p).length = if isUnknownPart p then 0 else 1) ∧
    (ps.flatMap (mapOnePure httpFetch)).length =
      ps.length - ps.countP isUnknownPart :=
  ⟨fun _ => rfl, mapPartsList_eq_flatMap httpFetch ps h,
    mapOnePure_length httpFetch, flatMap_length httpFetch ps⟩

/-- A sample fetch oracle whose every remote fetch fails. -/
def sampleFetch : String → Option String → Except String InlineDataResult :=
  fun _ _ => .error "ECONNREFUSED"

/-- A sample part list exercising every mapper case: text, unknown tag,
inline bytes within the limit, file reference and a failing remote image. -/
def sampleParts : List ContentPart :=
  [ContentPart.text "hi", ContentPart.unknown "mystery",
   ContentPart.inline_data "AAAA" "image/png",
   ContentPart.file_uri "files/abc" none,
   ContentPart.image_url "https://example.com/a.png" none]

/-- Witness for `mapContent_shape` at `sampleParts` under `sampleFetch`. -/
theorem mapContent_shape_witness :
    mapContentToGeminiParts sampleFetch (Content.parts sampleParts) =
      .ok (sampleParts.flatMap (mapOnePure sampleFetch)) :=
  (mapContent_shape sampleFetch sampleParts (by decide)).2.1

/-! ### Message mapper -/

/-- A conversation message (`MessageSchema` in schemas.ts): role is one of
`user`, `assistant`, `model`, `system`. -/
structure Message where
  role : String
  content : Content
deriving DecidableEq, Repr

/-- A native conversation turn. -/
structure GeminiContent where
  role : String
  parts : List GeminiPart
deriving DecidableEq, Repr

/-- Whether a part is a text part (`p.type === "text"`). -/
def isTextPart : ContentPart → Bool
  | .text _ => true
  | _ => false

/-- The text a system message contributes: the string content itself, or
the `text` of the first text-typed part of a structured content, or the
empty string. -/
def contentSystemText : Content → String
  | .str s => s
  | .parts ps =>
    match ps.find? isTextPart with
    | some (ContentPart.text t) => t
    | _ => ""

/-- The message loop of `mapMessagesToGeminiContents`: system messages
append their trimmed non-empty text to the system fragment accumulator and
produce no turn; other messages normalize `assistant` to `model`, map their
content, and produce a turn only when the mapped part list is non-empty. -/
def mapMessagesAux
    (httpFetch : String → Option String → Except String InlineDataResult) :
    List Message → List GeminiContent → List String →
      Except String (List GeminiContent × List String)
  | [], contents, systemMessages => .ok (contents, systemMessages)
  | message :: rest, contents, systemMessages =>
    if message.role = "system" then
      let messageText := contentSystemText message.content
      let systemMessages2 :=
        if jsTrim messageText ≠ "" then systemMessages ++ [jsTrim messageText]
        else systemMessages
      mapMessagesAux httpFetch rest contents systemMessages2
    else
      let role := if message.role = "assistant" then "model" else message.role
      match mapContentToGeminiParts httpFetch message.content with
      | .error e => .error e
      | .ok parts =>
        mapMessagesAux httpFetch rest
          (if parts.length > 0 then contents ++ [⟨role, parts⟩] else contents)
          systemMessages

/-- Source `mapMessagesToGeminiContents` (index.ts): seed the fragment list
with a truthy top-level instruction, run the loop, then join fragments with
blank lines; the result instruction is `undefined` when no fragments exist
or (per JS truthiness) when the joined string is empty. -/
def mapMessagesToGeminiContents
    (httpFetch : String → Option String → Except String InlineDataResult)
    (messages : List Message) (systemInstruction : Option String) :
    Except String (List GeminiContent × Option String) :=
  let initialSystem := match systemInstruction with
    | some s => if s ≠ "" then [s] else []
    | none => []
  (mapMessagesAux httpFetch messages [] initialSystem).map (fun r =>
    let finalSystemText :=
      if r.2.length > 0 then some (jsJoin "\n\n" r.2) else none
    (r.1, match finalSystemText with
      | some t => if t ≠ "" then some t else none
      | none => none))

/-- The trimmed non-empty texts the system messages contribute, in order. -/
def systemFragments (messages : List Message) : List String :=
  messages.filterMap (fun m =>
    let t := jsTrim (contentSystemText m.content)
    if t ≠ "" then some t else none)

theorem strLength_zero (s : String) (h : s.length = 0) : s = "" := by
  cases s with
  | mk data =>
    cases data with
    | nil => rfl
    | cons c cs => simp [String.length] at h

theorem jsJoin_foldl_ne_empty (sep : String) (l : List String) (acc : String)
    (ha : acc ≠ "") :
    l.foldl (fun acc s => acc ++ sep ++ s) acc ≠ "" := by
  induction l generalizing acc with
  | nil => exact ha
  | cons x xs ih =>
    refine ih (acc ++ sep ++ x) ?_
    intro hc
    have hlen : (acc ++ sep ++ x).length = 0 := by rw [hc]; rfl
    rw [String.length_append, String.length_append] at hlen
    have hz : acc.length = 0 := by omega
    exact ha (strLength_zero acc hz)

theorem jsJoin_ne_empty (sep a : String) (l : List String) (ha : a ≠ "") :
    jsJoin sep (a :: l) ≠ "" :=
  jsJoin_foldl_ne_empty sep l a ha

theorem systemFragments_ne_empty (messages : List Message) :
    ∀ x ∈ systemFragments messages, x ≠ "" := by
  intro x hx
  unfold systemFragments at hx
  rw [List.mem_filterMap] at hx
  obtain ⟨m, _, hfx⟩ := hx
  by_cases ht : jsTrim (contentSystemText m.content) = ""
  · simp [ht] at hfx
  · simp only [ne_eq, ht, not_false_eq_true, if_true, Option.some.injEq] at hfx
    rw [← hfx]
    exact ht

theorem mapMessagesAux_system
    (httpFetch : String → Option String → Except String InlineDataResult)
    (messages : List Message)
    (h : messages.all (fun m => m.role == "system") = true)
    (contents : List GeminiContent) (sys : List String) :
    mapMessagesAux httpFetch messages contents sys =
      .ok (contents, sys ++ systemFragments messages) := by
  induction messages generalizing sys with
  | nil => simp [mapMessagesAux, systemFragments]
  | cons m rest ih =>
    rw [List.all_cons, Bool.and_eq_true] at h
    have hrole : m.role = "system" := by simpa using h.1
    by_cases ht : jsTrim (contentSystemText m.content) = ""
    · rw [mapMessagesAux, if_pos hrole]
      simp only [ne_eq, ht, not_true_eq_false, if_false]
      rw [ih h.2 sys]
      simp [systemFragments, List.filterMap_cons, ht]
    · rw [mapMessagesAux, if_pos hrole]
      simp only [ne_eq, ht, not_false_eq_true, if_true]
      rw [ih h.2 (sys ++ [jsTrim (contentSystemText m.content)])]
      simp [systemFragments, List.filterMap_cons, ht]

/-- C6. For a message list containing only system-role messages and no
top-level instruction, `mapMessagesToGeminiContents` yields zero
conversation turns and a merged instruction equal to the trimmed non-empty
system texts joined by blank lines in original order, or `none` (not the
empty string) when no such fragment exists. -/
theorem mapMessages_system_only
    (httpFetch : String → Option String → Except String InlineDataResult)
    (messages : List Message)
    (h : messages.all (fun m => m.role == "system") = true) :
    mapMessagesToGeminiContents httpFetch messages none =
      .ok ([],
        if systemFragments messages = [] then none
        else some (jsJoin "\n\n" (systemFragments messages))) := by
  unfold mapMessagesToGeminiContents
  dsimp only
  rw [mapMessagesAux_system httpFetch messages h [] []]
  simp only [List.nil_append, Except.map]
  cases hf : systemFragments messages with
  | nil => simp
  | cons f fs =>
    have hfne : f ≠ "" :=
      systemFragments_ne_empty messages f (hf ▸ List.mem_cons_self f fs)
    have hjoin : jsJoin "\n\n" (f :: fs) ≠ "" := jsJoin_ne_empty "\n\n" f fs hfne
    simp [hjoin]

/-- A sample list of system-only messages: plain text with surrounding
whitespace, an all-whitespace one (skipped), and a structured content whose
first text part carries the fragment. -/
def sampleSystemMessages : List Message :=
  [⟨"system", Content.str "  Be concise.  "⟩,
   ⟨"system", Content.str "   "⟩,
   ⟨"system", Content.parts [ContentPart.image_url "https://example.com/x" none,
     ContentPart.text "Answer in French."]⟩]

/-- Witness for `mapMessages_system_only` at `sampleSystemMessages`. -/
theorem mapMessages_system_only_witness :
    mapMessagesToGeminiContents sampleFetch sampleSystemMessages none =
      .ok ([],
        if systemFragments sampleSystemMessages = [] then none
        else some (jsJoin "\n\n" (systemFragments sampleSystemMessages))) :=
  mapMessages_system_only sampleFetch sampleSystemMessages (by decide)

/-! ### Embeddings client

`GeminiClient.generateEmbeddings` from `src/providers/gemini.ts`.  The
HTTP POST to `:batchEmbedContents` is abstracted as an `upstream` function
from the request body to the parsed response; the client builds the request
body from the input texts and returns the upstream response unchanged.
The ignored `truncate` parameter (commented out in the source) is not
modelled. -/

/-- One entry of the batch request body: normalized model name, the single
text part, and the conditionally included task type and dimensionality. -/
structure EmbedRequestItem where
  model : String
  contentParts : List String
  taskType : Option String
  outputDimensionality : Option Int
deriving DecidableEq, Repr

/-- The `:batchEmbedContents` request body. -/
structure BatchEmbedContentsRequest where
  requests : List EmbedRequestItem
deriving DecidableEq, Repr

/-- One returned embedding vector. -/
structure Embedding where
  values : List Rat
deriving DecidableEq, Repr

/-- The `:batchEmbedContents` response body. -/
structure BatchEmbedContentsResponse where
  embeddings : List Embedding
deriving DecidableEq, Repr

/-- Parameters of `generateEmbeddings`. -/
structure GenerateEmbeddingsParams where
  model : String
  texts : List String
  taskType : Option String
  outputDimensionality : Option Int
deriving DecidableEq, Repr

/-- The per-text request entry the source builds inside `texts.map`:
prefix the model with `models/` unless already qualified, wrap the text as
the only content part, include `taskType` only when given and not
unspecified, include `outputDimensionality` only when a positive number. -/
def mkEmbedRequestItem (model : String) (taskType : Option String)
    (outputDimensionality : Option Int) (text : String) : EmbedRequestItem :=
  { model := if strStartsWith model "models/" then model else "models/" ++ model
    contentParts := [text]
    taskType := match taskType with
      | some t => if t ≠ "EMBEDDING_TASK_TYPE_UNSPECIFIED" then some t else none
      | none => none
    outputDimensionality := match outputDimensionality with
      | some d => if d > 0 then some d else none
      | none => none }

/-- The full request body: one entry per input text, in input order. -/
def buildEmbedRequest (params : GenerateEmbeddingsParams) :
    BatchEmbedContentsRequest :=
  ⟨params.texts.map
    (mkEmbedRequestItem params.model params.taskType params.outputDimensionality)⟩

/-- Source `GeminiClient.generateEmbeddings`: fail fast on an empty model
or text list, otherwise post the built request and return the parsed
response unchanged. -/
def generateEmbeddings
    (upstream : BatchEmbedContentsRequest → BatchEmbedContentsResponse)
    (params : GenerateEmbeddingsParams) :
    Except String BatchEmbedContentsResponse :=
  if params.model = "" then .error "generateEmbeddings: model is required"
  else if params.texts = [] then
    .error "generateEmbeddings: texts must be a non-empty array"
  else .ok (upstream (buildEmbedRequest params))

/-- C8. `generateEmbeddings` is order-preserving: the request body lists
one entry per input text in input order, the upstream response is returned
unchanged, and under the upstream contract (one embedding per request
entry) the returned vector list has exactly one element per input text in
the same index order. -/
theorem generateEmbeddings_order_preserving
    (upstream : BatchEmbedContentsRequest → BatchEmbedContentsResponse)
    (params : GenerateEmbeddingsParams)
    (hm : params.model ≠ "") (ht : params.texts ≠ [])
    (hup : ∀ req, (upstream req).embeddings.length = req.requests.length) :
    generateEmbeddings upstream params =
      .ok (upstream (buildEmbedRequest params)) ∧
    (buildEmbedRequest params).requests.map (·.contentParts) =
      params.texts.map (fun t => [t]) ∧
    (upstream (buildEmbedRequest params)).embeddings.length =
      params.texts.length := by
  refine ⟨?_, ?_, ?_⟩
  · simp [generateEmbeddings, hm, ht]
  · simp [buildEmbedRequest, mkEmbedRequestItem]
  · rw [hup]
    simp [buildEmbedRequest]

/-- A sample upstream endpoint answering every request entry with an empty
vector. -/
def sampleUpstream : BatchEmbedContentsRequest → BatchEmbedContentsResponse :=
  fun req => ⟨req.requests.map (fun _ => ⟨[]⟩)⟩

/-- Sample embeddings call with texts `a`, `b`, `c`. -/
def sampleEmbedParams : GenerateEmbeddingsParams :=
  ⟨"text-embedding-004", ["a", "b", "c"], none, none⟩

/-- Witness for `generateEmbeddings_order_preserving` at the sample call. -/
theorem generateEmbeddings_order_preserving_witness :
    generateEmbeddings sampleUpstream sampleEmbedParams =
      .ok (sampleUpstream (buildEmbedRequest sampleEmbedParams)) ∧
    (buildEmbedRequest sampleEmbedParams).requests.map (·.contentParts) =
      sampleEmbedParams.texts.map (fun t => [t]) ∧
    (sampleUpstream (buildEmbedRequest sampleEmbedParams)).embeddings.length =
      sampleEmbedParams.texts.length :=
  generateEmbeddings_order_preserving sampleUpstream sampleEmbedParams
    (by decide) (by decide) (fun req => by simp [sampleUpstream])

/-- C10. The response normalizers are total with the documented defaults on
responses missing any optional block: with no candidates (or an empty
candidate list) `isBlocked` is true, `extractText` is the empty string,
`extractFunctionCalls` is the empty list, and `getBlockReason` falls back
to its generic message when prompt feedback or its ratings are also
missing; with a first candidate missing content or parts the extractors
return the same empties, and a SAFETY finish without ratings produces the
generic blocked message; `extractUsage` is absent exactly when the usage
block is absent and zero-fills individual missing counters otherwise. -/
theorem normalizers_total_defaults (r : GeminiResponse) :
    (r.candidates.getD [] = [] →
      isBlocked r = true ∧ extractText r = "" ∧ extractFunctionCalls r = [] ∧
      (r.promptFeedback.bind (·.safetyRatings) = none →
        getBlockReason r = "No content generated")) ∧
    (∀ c cs, r.candidates.getD [] = c :: cs →
      ((c.content.bind (·.parts)).getD [] = [] →
        extractText r = "" ∧ extractFunctionCalls r = []) ∧
      (c.finishReason = some "SAFETY" → c.safetyRatings = none →
        getBlockReason r = "Content blocked by safety filters")) ∧
    (extractUsage r = none ↔ r.usageMetadata = none) ∧
    (∀ u, r.usageMetadata = some u →
      extractUsage r = some ⟨u.promptTokenCount.getD 0,
        u.candidatesTokenCount.getD 0, u.totalTokenCount.getD 0⟩) := by
  refine ⟨?_, ?_, ?_, ?_⟩
  · intro hc
    refine ⟨?_, ?_, ?_, ?_⟩
    · simp [isBlocked, hc]
    · simp [extractText, hc]
    · simp [extractFunctionCalls, hc]
    · intro hpf
      cases hp : r.promptFeedback with
      | none => simp [getBlockReason, hc, hp]
      | some pf =>
        have : pf.safetyRatings = none := by
          rw [hp] at hpf
          simpa using hpf
        simp [getBlockReason, hc, hp, this]
  · intro c cs hc
    refine ⟨?_, ?_⟩
    · intro hparts
      constructor
      · simp [extractText, hc, hparts, jsJoin]
      · simp [extractFunctionCalls, hc, hparts]
    · intro hfin hsr
      simp [getBlockReason, hc, hfin, hsr, flaggedRatings, jsJoin]
  · constructor
    · intro h
      cases hu : r.usageMetadata with
      | none => rfl
      | some u => simp [extractUsage, hu] at h
    · intro h
      simp [extractUsage, h]
  · intro u hu
    simp [extractUsage, hu]

/-- Witness for `normalizers_total_defaults` at the fully empty response. -/
theorem normalizers_total_defaults_witness :
    isBlocked ⟨none, none, none⟩ = true ∧
    extractText ⟨none, none, none⟩ = "" ∧
    extractFunctionCalls ⟨none, none, none⟩ = [] ∧
    getBlockReason ⟨none, none, none⟩ = "No content generated" ∧
    extractUsage ⟨none, none, none⟩ = none :=
  ⟨((normalizers_total_defaults ⟨none, none, none⟩).1 rfl).1,
   ((normalizers_total_defaults ⟨none, none, none⟩).1 rfl).2.1,
   ((normalizers_total_defaults ⟨none, none, none⟩).1 rfl).2.2.1,
   ((normalizers_total_defaults ⟨none, none, none⟩).1 rfl).2.2.2 rfl,
   ((normalizers_total_defaults ⟨none, none, none⟩).2.2.1).mpr rfl⟩
